import Mathlib

/-! Cosa-HTTP: `HTTP::Server` and `HTTP::Client` (src/HTTP.hh)

A shallow embedding of the inline member functions of `HTTP.hh`.

* A `Socket*` is `Option SocketRef`: `none` is `NULL`, `some p` the address of a
  socket object.
* `Socket` itself (Cosa/Socket.hh) is an external class.  Every call made on a
  socket is appended to a trace, and the status a call returns is supplied by a
  `SocketEnv`, which may depend on the socket and on everything done so far.
* Member functions take the object and the trace and return the C++ return
  value together with the updated object and trace.
-/

namespace HTTP

/-- HTTP.hh:30 `static const size_t HOSTNAME_MAX = 32;` -/
def HOSTNAME_MAX : Nat := 32

/-- HTTP.hh:33 `static const size_t REQUEST_MAX = 64;` -/
def REQUEST_MAX : Nat := 64

/-- Address of a `Socket` object (a non-NULL `Socket*`). -/
abbrev SocketRef := Nat

/-- Member functions of the external class `Socket` that the HTTP classes call. -/
inductive SocketOp where
  | listen
  | close
  | accept
  | read
  | write (bytes : List Char)
  | disconnect
  deriving DecidableEq, Repr

/-- One observable step: a call on a socket, or a call of the application's
`on_request` override with the strings it was handed. -/
inductive Event where
  | sock (ref : SocketRef) (op : SocketOp)
  | on_request (method path query : List Char)
  deriving DecidableEq, Repr

/-- Everything done so far, oldest first. -/
abbrev Trace := List Event

/-- Behaviour of the external sockets: the `int` status that `listen()` and
`close()` return, given the socket and the history before the call. -/
structure SocketEnv where
  listen : SocketRef → Trace → Int
  close : SocketRef → Trace → Int

/-- The call `sock->listen()`: returns the status and records the call. -/
def Socket.listen (env : SocketEnv) (sock : SocketRef) (t : Trace) : Int × Trace :=
  (env.listen sock t, t ++ [Event.sock sock SocketOp.listen])

/-- The call `sock->close()`: returns the status and records the call. -/
def Socket.close (env : SocketEnv) (sock : SocketRef) (t : Trace) : Int × Trace :=
  (env.close sock t, t ++ [Event.sock sock SocketOp.close])

/-- Data members of `HTTP::Server` (HTTP.hh:112). -/
structure Server where
  m_sock : Option SocketRef
  deriving DecidableEq, Repr

/-- HTTP.hh:45 `Server() : m_sock(NULL) {}` -/
def Server.new : Server := { m_sock := none }

/-- HTTP.hh:54-59
```
bool begin(Socket* sock)
{
  if (sock == NULL) return (false);
  m_sock = sock;
  return (sock->listen() == 0);
}
``` -/
def Server.begin (env : SocketEnv) (self : Server) (sock : Option SocketRef) (t : Trace) :
    Bool × Server × Trace :=
  match sock with
  | none => (false, self, t)
  | some p =>
    let self₁ : Server := { self with m_sock := some p }
    let (status, t₁) := Socket.listen env p t
    (decide (status = 0), self₁, t₁)

/-- HTTP.hh:78-84
```
bool end()
{
  if (m_sock == NULL) return (false);
  m_sock->close();
  m_sock = NULL;
  return (true);
}
``` -/
def Server.«end» (env : SocketEnv) (self : Server) (t : Trace) : Bool × Server × Trace :=
  match self.m_sock with
  | none => (false, self, t)
  | some p =>
    let (_, t₁) := Socket.close env p t
    let self₁ : Server := { self with m_sock := none }
    (true, self₁, t₁)

/-- The calls made on socket `p` in a trace. -/
def opsOn (p : SocketRef) (t : Trace) : List SocketOp :=
  t.filterMap fun e =>
    match e with
    | Event.sock q op => if q = p then some op else none
    | Event.on_request _ _ _ => none

/-- A socket environment in which every `listen()` and `close()` returns `status`. -/
def SocketEnv.const (status : Int) : SocketEnv :=
  { listen := fun _ _ => status, close := fun _ _ => status }

/-! ## `HTTP::Server::run`

`run` is only declared in HTTP.hh (line 71); its body is not part of the
sources.  The definitions of this section follow the specification's
description of the service cycle (section 4.1, steps 1-6) and of the
request-line buffer (section 3). -/

/-- Modelled from the spec: the error codes of `run` (the body of
`HTTP::Server::run` is missing): "0 = success; -1 = generic I/O/parse failure;
-2 = timeout". -/
def Server.SUCCESS : Int := 0

/-- Modelled from the spec: generic I/O or parse failure code of the missing
`HTTP::Server::run`. -/
def Server.FAILURE : Int := -1

/-- Modelled from the spec: timeout code of the missing `HTTP::Server::run`;
HTTP.hh:67 documents the same value, "timeout(-2)". -/
def Server.TIMEOUT : Int := -2

/-- Modelled from the spec: the transport as the missing `HTTP::Server::run`
sees it during one call ("accept-or-timeout wait", "read(buffer, max, timeout)
-> bytes_or_error"): `arrival` is the number of
milliseconds after the call at which a client connects (`none`: no client ever
does), `incoming` the bytes that client sends (`none`: nothing arrives before
the read times out). -/
structure Network where
  arrival : Option Nat
  incoming : Option (List Char)

/-- Modelled from the spec: the ways the wait for a client in the missing
`HTTP::Server::run` can go: a connection is accepted, the timeout elapses, or
the call keeps blocking. -/
inductive WaitOutcome where
  | connected
  | elapsed
  | blocked
  deriving DecidableEq, Repr

/-- Modelled from the spec: step 1 of the missing `HTTP::Server::run`, "Block
until a client connection is accepted or `timeout` milliseconds elapse (0 =
block indefinitely)".  With `ms = 0` the wait ends only when a client
connects. -/
def acceptWait (ms : Nat) (arrival : Option Nat) : WaitOutcome :=
  match arrival with
  | some at_ms =>
    if ms = 0 ∨ at_ms < ms then WaitOutcome.connected else WaitOutcome.elapsed
  | none =>
    if ms = 0 then WaitOutcome.blocked else WaitOutcome.elapsed

/-- Modelled from the spec: the line terminator of the wire format read by the
missing `HTTP::Server::run` ("CRLF"); either of CR and LF ends the line. -/
def isTerminator (c : Char) : Bool :=
  c == '\r' || c == '\n'

/-- Modelled from the spec: the whitespace that delimits tokens in the missing
`HTTP::Server::run`, as C's `isspace` has it: space, HT, LF, VT, FF, CR. -/
def isSpace (c : Char) : Bool :=
  c == ' ' || c == '\t' || c == '\n' || c == Char.ofNat 11 || c == Char.ofNat 12 || c == '\r'

/-- Modelled from the spec: step 2 of the missing `HTTP::Server::run`, "Read
bytes into the fixed request-line buffer until a line terminator or buffer
capacity is reached".  `room` is the number of characters the buffer can still
take; the line is returned without its terminator, and a line that does not
fit fails ("request line length < REQUEST_MAX (else truncation/parse
failure)"). -/
def readLine : Nat → List Char → Option (List Char)
  | _, [] => some []
  | 0, c :: _ => if isTerminator c then some [] else none
  | room + 1, c :: cs =>
    if isTerminator c then some []
    else (readLine room cs).map fun line => c :: line

/-- The three strings handed to `on_request` (HTTP.hh:105: `method`, `path`,
`query`). -/
structure Request where
  method : List Char
  path : List Char
  query : List Char
  deriving DecidableEq, Repr

/-- Modelled from the spec: skipping the whitespace in front of a token, for
the missing `HTTP::Server::run`. -/
def skipSpaces (l : List Char) : List Char :=
  l.dropWhile isSpace

/-- Modelled from the spec: the next of the "whitespace-delimited tokens" that
the missing `HTTP::Server::run` parses, and what follows it. -/
def nextToken (l : List Char) : List Char × List Char :=
  let l₁ := skipSpaces l
  (l₁.takeWhile fun c => !isSpace c, l₁.dropWhile fun c => !isSpace c)

/-- Modelled from the spec: step 3 of the missing `HTTP::Server::run`, "Parse
the line: whitespace-delimited tokens — first token is method, second is the
path possibly followed by `?query` (split path from query at `?`); any
fragment beyond is ignored"; a line with "missing method or path" does not
parse. -/
def parseRequest (line : List Char) : Option Request :=
  let (method, rest) := nextToken line
  let (target, _) := nextToken rest
  let path := target.takeWhile fun c => c != '?'
  let query := (target.dropWhile fun c => c != '?').drop 1
  if method = [] ∨ path = [] then none
  else some { method := method, path := path, query := query }

/-- Modelled from the spec: how a call of the missing `HTTP::Server::run` ends:
it returns a code, or keeps blocking ("0 = block indefinitely"), or the server
was unbound, for which the spec gives no behaviour. -/
inductive RunResult where
  | returned (code : Int) (t : Trace)
  | blocked (t : Trace)
  | unspecified
  deriving DecidableEq, Repr

/-- Modelled from the spec: steps 2-4 of the missing `HTTP::Server::run` on an
accepted connection: read the request line into a buffer of `REQUEST_MAX`
bytes (one of them for the terminating NUL), parse it, and call `on_request`
with a stream bound to the same socket; `on_request` is the application's
override, given here by the bytes it writes to that stream. -/
def Server.serve (on_request : List Char → List Char → List Char → List Char)
    (net : Network) (p : SocketRef) (t : Trace) : Int × Trace :=
  let t₁ := t ++ [Event.sock p SocketOp.read]
  match net.incoming with
  | none => (Server.FAILURE, t₁)
  | some bytes =>
    match (readLine (REQUEST_MAX - 1) bytes).bind parseRequest with
    | none => (Server.FAILURE, t₁)
    | some req =>
      let page := on_request req.method req.path req.query
      (Server.SUCCESS,
        t₁ ++ [Event.on_request req.method req.path req.query,
               Event.sock p (SocketOp.write page)])

/-- Modelled from the spec: the missing body of `HTTP::Server::run`
(HTTP.hh:71 declares `int run(uint32_t ms = 0L);`), section 4.1 steps 1-6:
wait for a client, on elapse return the timeout code "without side effects
beyond the wait"; otherwise serve the request, then "disconnect the current
connection and re-arm listening mode" and return the code of the cycle.  The
spec requires a bound socket and says nothing about an unbound server. -/
def Server.run (on_request : List Char → List Char → List Char → List Char)
    (env : SocketEnv) (net : Network) (self : Server) (ms : Nat) (t : Trace) : RunResult :=
  match self.m_sock with
  | none => RunResult.unspecified
  | some p =>
    let t₁ := t ++ [Event.sock p SocketOp.accept]
    match acceptWait ms net.arrival with
    | WaitOutcome.blocked => RunResult.blocked t₁
    | WaitOutcome.elapsed => RunResult.returned Server.TIMEOUT t₁
    | WaitOutcome.connected =>
      let (code, t₂) := Server.serve on_request net p t₁
      let t₃ := t₂ ++ [Event.sock p SocketOp.disconnect]
      let (_, t₄) := Socket.listen env p t₃
      RunResult.returned code t₄

/-- The `on_request` calls recorded in a trace. -/
def requestsIn (t : Trace) : List Request :=
  t.filterMap fun e =>
    match e with
    | Event.sock _ _ => none
    | Event.on_request m p q => some { method := m, path := p, query := q }

/-- No client connects within the first `ms` milliseconds of the call. -/
def noClientWithin (ms : Nat) (net : Network) : Prop :=
  ∀ at_ms, net.arrival = some at_ms → ms ≤ at_ms

/-- The request line `METHOD SP path?query SP version`, without its terminator. -/
def requestLine (method path query version : List Char) : List Char :=
  method ++ ' ' :: (path ++ '?' :: (query ++ ' ' :: version))

/-- An application override of `on_request` that answers every request with
the same page. -/
def fixedPage (page : List Char) : List Char → List Char → List Char → List Char :=
  fun _ _ _ => page

/-- A string without whitespace. -/
def isToken (l : List Char) : Prop :=
  ∀ c ∈ l, isSpace c = false

/-! ## `HTTP::Client` -/

/-- Data members of `HTTP::Client` (HTTP.hh:175). -/
structure Client where
  m_sock : Option SocketRef
  deriving DecidableEq, Repr

/-- HTTP.hh:125 `Client() : m_sock(NULL) {}` -/
def Client.new : Client := { m_sock := none }

/-- HTTP.hh:130-133
```
~Client()
{
  end();
}
```
`Client::end` is only declared (HTTP.hh:149), so its implementation is the
parameter `end_impl`, a function on whatever state `σ` it reads and writes
(the client object, its socket, the trace).  The destructor discards the
`bool` that `end()` returns. -/
def Client.destructor {σ : Type} (end_impl : σ → Bool × σ) (st : σ) : σ :=
  let (_, st₁) := end_impl st
  st₁

/-- An implementation of `end()` instrumented with a call counter. -/
def Client.counting {σ : Type} (end_impl : σ → Bool × σ) : σ × Nat → Bool × (σ × Nat) :=
  fun st =>
    let (r, st₁) := end_impl st.1
    (r, (st₁, st.2 + 1))

end HTTP

namespace HTTP

/-! ## `HTTP::Server::begin` and `HTTP::Server::end` -/

/-- C1: `end()` returns false exactly when no socket is bound, which is the
state of a freshly constructed server; then it makes no call on any socket and
leaves the server as it was.  When socket `p` is bound it makes exactly one
call, `close()` on `p`, leaves the server unbound and returns true. -/
theorem Server.end_spec (env : SocketEnv) (self : Server) (t : Trace) :
    ((Server.«end» env self t).1 = false ↔ self.m_sock = none) ∧
    Server.new.m_sock = none ∧
    Server.«end» env Server.new t = (false, Server.new, t) ∧
    (self.m_sock = none → Server.«end» env self t = (false, self, t)) ∧
    (∀ p, self.m_sock = some p →
      Server.«end» env self t
        = (true, { m_sock := none }, t ++ [Event.sock p SocketOp.close])) := by
  obtain ⟨m⟩ := self
  cases m <;> simp [Server.«end», Server.new, Socket.close]

/-- C2: `begin(NULL)` returns false whatever the server state, keeps the bound
socket reference as it was and makes no call on any socket. -/
theorem Server.begin_null (env : SocketEnv) (self : Server) (t : Trace) :
    Server.begin env self none t = (false, self, t) := by
  rfl

/-- C3: `begin(p)` with a non-NULL socket `p` binds the server to `p`, makes
exactly one call, `listen()` on `p`, and returns true if and only if that call
returned 0. -/
theorem Server.begin_socket (env : SocketEnv) (self : Server) (p : SocketRef) (t : Trace) :
    (Server.begin env self (some p) t).2.1.m_sock = some p ∧
    (Server.begin env self (some p) t).2.2 = t ++ [Event.sock p SocketOp.listen] ∧
    (Server.begin env self (some p) t).2.2 = (Socket.listen env p t).2 ∧
    ((Server.begin env self (some p) t).1 = true ↔ (Socket.listen env p t).1 = 0) := by
  simp [Server.begin, Socket.listen]

/-- C4: after any call of `end()` the server is unbound, whatever that call
returned, and a second `end()` right after it returns false, makes no call on
any socket and leaves the server unbound. -/
theorem Server.end_twice (env : SocketEnv) (self : Server) (t : Trace) :
    (Server.«end» env self t).2.1.m_sock = none ∧
    Server.«end» env (Server.«end» env self t).2.1 (Server.«end» env self t).2.2
      = (false, (Server.«end» env self t).2.1, (Server.«end» env self t).2.2) := by
  obtain ⟨m⟩ := self
  cases m <;> simp [Server.«end», Socket.close]

/-- C5: `begin(a)` followed by `begin(b)`, both sockets non-NULL, leaves the
server bound to `b`; the second call makes exactly one call on a socket,
`listen()` on `b`, so it adds no `close()` on `a` and, when `a` is another
socket than `b`, no call on `a` at all. -/
theorem Server.begin_rebind (env : SocketEnv) (self : Server) (a b : SocketRef) (t : Trace) :
    (Server.begin env (Server.begin env self (some a) t).2.1 (some b)
        (Server.begin env self (some a) t).2.2).2.1.m_sock = some b ∧
    (Server.begin env (Server.begin env self (some a) t).2.1 (some b)
        (Server.begin env self (some a) t).2.2).2.2
      = (Server.begin env self (some a) t).2.2 ++ [Event.sock b SocketOp.listen] ∧
    (opsOn a (Server.begin env (Server.begin env self (some a) t).2.1 (some b)
        (Server.begin env self (some a) t).2.2).2.2).count SocketOp.close
      = (opsOn a (Server.begin env self (some a) t).2.2).count SocketOp.close ∧
    (a ≠ b →
      opsOn a (Server.begin env (Server.begin env self (some a) t).2.1 (some b)
        (Server.begin env self (some a) t).2.2).2.2
      = opsOn a (Server.begin env self (some a) t).2.2) := by
  refine ⟨by simp [Server.begin], by simp [Server.begin, Socket.listen], ?_, ?_⟩
  · by_cases h : b = a <;>
      simp [Server.begin, Socket.listen, opsOn, List.filterMap_append, h]
  · intro h
    have h₁ : ¬ b = a := fun e => h e.symm
    simp [Server.begin, Socket.listen, opsOn, List.filterMap_append, h₁]

/-- C10: when `listen()` on a non-NULL socket `p` returns a non-zero status,
`begin(p)` returns false but leaves the server bound to `p`, whatever it was
bound to before; `end()` right after it returns true and calls `close()` on
`p`. -/
theorem Server.begin_listen_failure (env : SocketEnv) (self : Server) (p : SocketRef)
    (t : Trace) (h : (Socket.listen env p t).1 ≠ 0) :
    Server.begin env self (some p) t
      = (false, { m_sock := some p }, t ++ [Event.sock p SocketOp.listen]) ∧
    Server.«end» env (Server.begin env self (some p) t).2.1
        (Server.begin env self (some p) t).2.2
      = (true, { m_sock := none },
          t ++ [Event.sock p SocketOp.listen, Event.sock p SocketOp.close]) := by
  simp only [Socket.listen] at h
  simp [Server.begin, Server.«end», Socket.listen, Socket.close, h]

/-- Witness for C10: a socket whose `listen()` returns -1, on a server bound to
another socket. -/
theorem Server.begin_listen_failure_witness :
    Server.begin (SocketEnv.const (-1)) { m_sock := some 4 } (some 9) []
      = (false, { m_sock := some 9 }, [] ++ [Event.sock 9 SocketOp.listen]) ∧
    Server.«end» (SocketEnv.const (-1))
        (Server.begin (SocketEnv.const (-1)) { m_sock := some 4 } (some 9) []).2.1
        (Server.begin (SocketEnv.const (-1)) { m_sock := some 4 } (some 9) []).2.2
      = (true, { m_sock := none },
          [] ++ [Event.sock 9 SocketOp.listen, Event.sock 9 SocketOp.close]) :=
  Server.begin_listen_failure (SocketEnv.const (-1)) { m_sock := some 4 } 9 [] (by decide)

/-- C8: the request-line buffer holds `REQUEST_MAX` = 64 bytes and the hostname
buffer `HOSTNAME_MAX` = 32 bytes. -/
theorem buffer_capacities : REQUEST_MAX = 64 ∧ HOSTNAME_MAX = 32 :=
  ⟨rfl, rfl⟩

/-! ## `HTTP::Client::~Client` -/

/-- C9: for every implementation of `end()` and every state, destroying a
client has the effect of one call of `end()`, its return value dropped: the
resulting state is the one `end()` leaves (in particular the client object and
the socket trace), and an `end()` that counts its calls has counted one more. -/
theorem Client.destructor_spec {σ : Type} (end_impl : σ → Bool × σ) (st : σ) (n : Nat)
    (end_client : Client → Trace → Bool × Client × Trace) (self : Client) (t : Trace) :
    Client.destructor end_impl st = (end_impl st).2 ∧
    Client.destructor (Client.counting end_impl) (st, n) = ((end_impl st).2, n + 1) ∧
    Client.destructor (fun s => end_client s.1 s.2) (self, t) = (end_client self t).2 := by
  refine ⟨rfl, rfl, rfl⟩

end HTTP

namespace HTTP

/-! ## `HTTP::Server::run` -/

/-- Scanning while `p` holds stops at the first character that fails `p`. -/
theorem takeWhile_stop (p : Char → Bool) (l r : List Char) (x : Char)
    (hl : ∀ c ∈ l, p c = true) (hx : p x = false) :
    (l ++ x :: r).takeWhile p = l := by
  rw [List.takeWhile_append_of_pos hl, List.takeWhile_cons_of_neg (by simp [hx])]
  simp

/-- Dropping while `p` holds leaves the first character that fails `p` and what
follows it. -/
theorem dropWhile_stop (p : Char → Bool) (l r : List Char) (x : Char)
    (hl : ∀ c ∈ l, p c = true) (hx : p x = false) :
    (l ++ x :: r).dropWhile p = x :: r := by
  rw [List.dropWhile_append_of_pos hl, List.dropWhile_cons_of_neg (by simp [hx])]

/-- Nothing is skipped in front of a string that starts with a token. -/
theorem skipSpaces_token (tok r : List Char) (h : isToken tok) (h0 : tok ≠ []) :
    skipSpaces (tok ++ r) = tok ++ r := by
  cases tok with
  | nil => exact absurd rfl h0
  | cons c cs =>
    have hc : isSpace c = false := h c (List.mem_cons_self c cs)
    simp [skipSpaces, hc]

/-- A token followed by whitespace is the next token. -/
theorem nextToken_token (tok r : List Char) (x : Char) (h : isToken tok) (h0 : tok ≠ [])
    (hx : isSpace x = true) :
    nextToken (tok ++ x :: r) = (tok, x :: r) := by
  have hl : ∀ c ∈ tok, (fun c => !isSpace c) c = true := fun c hc => by simp [h c hc]
  have hx₁ : (fun c => !isSpace c) x = false := by simp [hx]
  simp only [nextToken, skipSpaces_token tok (x :: r) h h0]
  rw [takeWhile_stop _ tok r x hl hx₁, dropWhile_stop _ tok r x hl hx₁]

/-- The reader returns a line that fits the buffer, up to its terminator. -/
theorem readLine_line (line rest : List Char) (x : Char) (room : Nat)
    (hline : ∀ c ∈ line, isTerminator c = false) (hx : isTerminator x = true)
    (hroom : line.length ≤ room) :
    readLine room (line ++ x :: rest) = some line := by
  induction line generalizing room with
  | nil => cases room <;> simp [readLine, hx]
  | cons c cs ih =>
    have hc : isTerminator c = false := hline c (List.mem_cons_self c cs)
    have hcs : ∀ d ∈ cs, isTerminator d = false := fun d hd =>
      hline d (List.mem_cons_of_mem c hd)
    cases room with
    | zero => simp at hroom
    | succ n =>
      have hn : cs.length ≤ n := by simpa using hroom
      simp [readLine, hc, ih n hcs hn]

/-- A character that is not whitespace is not a line terminator. -/
theorem isTerminator_of_not_isSpace (c : Char) (h : isSpace c = false) :
    isTerminator c = false := by
  simp only [isSpace, Bool.or_eq_false_iff] at h
  simp [isTerminator, h]

/-- Parsing `METHOD SP path?query SP version` yields the three parts. -/
theorem parseRequest_requestLine (method path query version : List Char)
    (hm : isToken method) (hm0 : method ≠ [])
    (hp : isToken path) (hp0 : path ≠ []) (hpq : '?' ∉ path)
    (hq : isToken query) :
    parseRequest (requestLine method path query version)
      = some { method := method, path := path, query := query } := by
  have hsp : isSpace ' ' = true := by decide
  have hqm : isSpace '?' = false := by decide
  have htarget : isToken (path ++ '?' :: query) := by
    intro c hc
    rcases List.mem_append.mp hc with h | h
    · exact hp c h
    · rcases List.mem_cons.mp h with h | h
      · rw [h]; exact hqm
      · exact hq c h
  have htarget0 : path ++ '?' :: query ≠ [] := by simp
  have h₁ : nextToken (requestLine method path query version)
      = (method, ' ' :: (path ++ '?' :: (query ++ ' ' :: version))) :=
    nextToken_token method _ ' ' hm hm0 hsp
  have hskip : skipSpaces (' ' :: (path ++ '?' :: (query ++ ' ' :: version)))
      = skipSpaces ((path ++ '?' :: query) ++ ' ' :: version) := by
    simp [skipSpaces, hsp]
  have h₂ : nextToken (' ' :: (path ++ '?' :: (query ++ ' ' :: version)))
      = (path ++ '?' :: query, ' ' :: version) := by
    have := nextToken_token (path ++ '?' :: query) version ' ' htarget htarget0 hsp
    simp only [nextToken] at this ⊢
    rw [hskip]
    exact this
  have hpl : ∀ c ∈ path, (fun c => c != '?') c = true := by
    intro c hc
    have : c ≠ '?' := fun e => hpq (e ▸ hc)
    simp [this]
  have hstop : (fun c => c != '?') '?' = false := by simp
  simp only [parseRequest, h₁, h₂]
  rw [takeWhile_stop _ path query '?' hpl hstop, dropWhile_stop _ path query '?' hpl hstop]
  simp [hm0, hp0]

/-- The code of a served request is the generic failure code or success, never
the timeout code. -/
theorem Server.serve_code (on_request : List Char → List Char → List Char → List Char)
    (net : Network) (p : SocketRef) (t : Trace) :
    (Server.serve on_request net p t).1 ≠ Server.TIMEOUT := by
  unfold Server.serve
  split
  · simp [Server.FAILURE, Server.TIMEOUT]
  · split <;> simp [Server.FAILURE, Server.SUCCESS, Server.TIMEOUT]

/-- With `ms = 0` no timeout period is set ("0 = block indefinitely", the
default argument of `run`): whatever the network does, `run` never returns the
timeout code. -/
theorem Server.run_block_no_timeout
    (on_request : List Char → List Char → List Char → List Char)
    (env : SocketEnv) (net : Network) (self : Server) (t t₁ : Trace) :
    Server.run on_request env net self 0 t ≠ RunResult.returned Server.TIMEOUT t₁ := by
  intro h
  unfold Server.run at h
  cases hs : self.m_sock with
  | none => simp [hs] at h
  | some p =>
    cases ha : net.arrival with
    | none => simp [hs, ha, acceptWait] at h
    | some a =>
      simp only [hs, ha, acceptWait, true_or, if_true, Socket.listen] at h
      injection h with hcode _
      exact Server.serve_code on_request net p _ hcode

/-- C6: `run(ms)` with a timeout period set (`ms > 0`; 0 stands for "block
indefinitely") on a server bound to a socket: when no client connects within
the `ms` milliseconds, `run` returns -2, the timeout code, which differs from
the generic failure code -1; the call only waits on the socket and
`on_request` is not invoked. -/
theorem Server.run_timeout (on_request : List Char → List Char → List Char → List Char)
    (env : SocketEnv) (net : Network) (self : Server) (p : SocketRef) (ms : Nat) (t : Trace)
    (hb : self.m_sock = some p) (hms : 0 < ms) (hno : noClientWithin ms net) :
    Server.run on_request env net self ms t
      = RunResult.returned (-2) (t ++ [Event.sock p SocketOp.accept]) ∧
    Server.TIMEOUT = -2 ∧ Server.TIMEOUT ≠ Server.FAILURE ∧
    requestsIn (t ++ [Event.sock p SocketOp.accept]) = requestsIn t := by
  have hw : acceptWait ms net.arrival = WaitOutcome.elapsed := by
    have hms0 : ms ≠ 0 := Nat.pos_iff_ne_zero.mp hms
    cases ha : net.arrival with
    | none => simp [acceptWait, hms0]
    | some a =>
      have : ¬ a < ms := Nat.not_lt.mpr (hno a ha)
      simp [acceptWait, hms0, this]
  refine ⟨?_, rfl, by decide, ?_⟩
  · simp [Server.run, hb, hw, Server.TIMEOUT]
  · simp [requestsIn, List.filterMap_append]

/-- Witness for C6: a server bound to socket 7, a timeout of 100 ms
and a client that connects only after 250 ms. -/
theorem Server.run_timeout_witness :
    Server.run (fixedPage ['o', 'k']) (SocketEnv.const 0)
        { arrival := some 250, incoming := some ['G', 'E', 'T'] } { m_sock := some 7 } 100 []
      = RunResult.returned (-2) ([] ++ [Event.sock 7 SocketOp.accept]) ∧
    Server.TIMEOUT = -2 ∧ Server.TIMEOUT ≠ Server.FAILURE ∧
    requestsIn ([] ++ [Event.sock 7 SocketOp.accept]) = requestsIn [] :=
  Server.run_timeout (fixedPage ['o', 'k']) (SocketEnv.const 0)
    { arrival := some 250, incoming := some ['G', 'E', 'T'] } { m_sock := some 7 } 7 100 []
    rfl (by decide) (by intro a h; cases h; decide)

/-- C7: a client connects in time and sends a request line of the form
`METHOD SP path?query SP version` that fits the request buffer (`METHOD`,
`path` and `query` without whitespace, `METHOD` and `path` not empty, no `?`
in `path`), followed by its terminator.  Then `run` invokes `on_request`
exactly once, with method = `METHOD`, the first token, path = the part of the
second token before its first `?`, and query = the part after it; it then
resets the socket and returns 0. -/
theorem Server.run_request_line
    (on_request : List Char → List Char → List Char → List Char)
    (env : SocketEnv) (self : Server) (p : SocketRef) (ms at_ms : Nat) (t : Trace)
    (method path query version rest : List Char)
    (hb : self.m_sock = some p) (hin : ms = 0 ∨ at_ms < ms)
    (hm : isToken method) (hm0 : method ≠ [])
    (hp : isToken path) (hp0 : path ≠ []) (hpq : '?' ∉ path)
    (hq : isToken query) (hv : ∀ c ∈ version, isTerminator c = false)
    (hlen : (requestLine method path query version).length < REQUEST_MAX) :
    Server.run on_request env
        { arrival := some at_ms,
          incoming := some (requestLine method path query version ++ '\r' :: '\n' :: rest) }
        self ms t
      = RunResult.returned 0
          (t ++ [Event.sock p SocketOp.accept, Event.sock p SocketOp.read,
                 Event.on_request method path query,
                 Event.sock p (SocketOp.write (on_request method path query)),
                 Event.sock p SocketOp.disconnect, Event.sock p SocketOp.listen]) ∧
    requestsIn
          (t ++ [Event.sock p SocketOp.accept, Event.sock p SocketOp.read,
                 Event.on_request method path query,
                 Event.sock p (SocketOp.write (on_request method path query)),
                 Event.sock p SocketOp.disconnect, Event.sock p SocketOp.listen])
      = requestsIn t ++ [{ method := method, path := path, query := query }] := by
  have hw : acceptWait ms (some at_ms) = WaitOutcome.connected := by
    simp [acceptWait, hin]
  have hterm : ∀ c ∈ requestLine method path query version, isTerminator c = false := by
    intro c hc
    simp only [requestLine, List.mem_append, List.mem_cons] at hc
    rcases hc with h | h | h | h | h | h | h
    · exact isTerminator_of_not_isSpace c (hm c h)
    · rw [h]; decide
    · exact isTerminator_of_not_isSpace c (hp c h)
    · rw [h]; decide
    · exact isTerminator_of_not_isSpace c (hq c h)
    · rw [h]; decide
    · exact hv c h
  have hroom : (requestLine method path query version).length ≤ REQUEST_MAX - 1 :=
    Nat.le_pred_of_lt hlen
  have hread : readLine (REQUEST_MAX - 1)
      (requestLine method path query version ++ '\r' :: '\n' :: rest)
      = some (requestLine method path query version) :=
    readLine_line _ _ '\r' _ hterm (by decide) hroom
  have hparse := parseRequest_requestLine method path query version hm hm0 hp hp0 hpq hq
  refine ⟨?_, ?_⟩
  · simp [Server.run, Server.serve, hb, hw, hread, hparse, Socket.listen, Server.SUCCESS]
  · simp [requestsIn, List.filterMap_append]

/-- Witness for C7: the request line `GET /a/b?x=1 HTTP/1.0`, sent 3 ms after a
call of `run(10)` on a server bound to socket 7. -/
theorem Server.run_request_line_witness :
    requestLine ['G', 'E', 'T'] ['/', 'a', '/', 'b'] ['x', '=', '1']
        ['H', 'T', 'T', 'P', '/', '1', '.', '0']
      = "GET /a/b?x=1 HTTP/1.0".toList ∧
    Server.run (fixedPage ['o', 'k']) (SocketEnv.const 0)
        { arrival := some 3,
          incoming := some (requestLine ['G', 'E', 'T'] ['/', 'a', '/', 'b'] ['x', '=', '1']
            ['H', 'T', 'T', 'P', '/', '1', '.', '0'] ++ '\r' :: '\n' :: []) }
        { m_sock := some 7 } 10 []
      = RunResult.returned 0
          ([] ++ [Event.sock 7 SocketOp.accept, Event.sock 7 SocketOp.read,
                 Event.on_request ['G', 'E', 'T'] ['/', 'a', '/', 'b'] ['x', '=', '1'],
                 Event.sock 7 (SocketOp.write
                   (fixedPage ['o', 'k'] ['G', 'E', 'T'] ['/', 'a', '/', 'b'] ['x', '=', '1'])),
                 Event.sock 7 SocketOp.disconnect, Event.sock 7 SocketOp.listen]) :=
  ⟨by decide,
   (Server.run_request_line (fixedPage ['o', 'k']) (SocketEnv.const 0) { m_sock := some 7 }
      7 10 3 [] ['G', 'E', 'T'] ['/', 'a', '/', 'b'] ['x', '=', '1']
      ['H', 'T', 'T', 'P', '/', '1', '.', '0'] [] rfl (by decide)
      (by unfold isToken; decide) (by decide) (by unfold isToken; decide) (by decide)
      (by decide) (by unfold isToken; decide) (by decide) (by decide)).1⟩

end HTTP
